import Mathlib

/-
Shallow embedding of the BloodHound OpenGraph builder (opengraph/core.py):
property-value model, node/edge construction and validation, node merging,
duplicate-identity handling, edge-reference resolution, and the structured
serialization produced by to_dict.  Python in-place mutation combined with
exceptions is modelled by operations that return both an error and the
state of the mutated objects at the moment the exception is raised.
-/

namespace OpenGraph

/-- Runtime type tags of the Python values that can appear as property
values (type(v) for v a str, int, float, bool, None, list or dict). -/
inductive PType where
  | str
  | int
  | float
  | bool
  | noneType
  | list
  | dict
deriving DecidableEq

/-- Property values: JSON-style Python values.  Floats are carried as
rationals; the library never computes with the payload, it only inspects
the runtime type tag. -/
inductive Value where
  | str (s : String)
  | int (n : Int)
  | float (q : Rat)
  | bool (b : Bool)
  | null
  | list (xs : List Value)
  | dict (entries : List (String × Value))

/-- Runtime type tag of a value, Python type(v). -/
def Value.typeOf : Value → PType
  | .str _ => .str
  | .int _ => .int
  | .float _ => .float
  | .bool _ => .bool
  | .null => .noneType
  | .list _ => .list
  | .dict _ => .dict

/-- Python isinstance(v, t) restricted to the types above: exact type
match, plus the special case that bool is a subclass of int. -/
def pyIsinstance (v : Value) (t : PType) : Bool :=
  v.typeOf == t || (v.typeOf == .bool && t == .int)

/-- Python test v is None. -/
def Value.isNull : Value → Bool
  | .null => true
  | _ => false

/-- A Python dict of properties, in insertion order. -/
abbrev PropMap : Type := List (String × Value)

/-- Error taxonomy: each constructor corresponds to a raise site of
opengraph/core.py, classified as in the specification. -/
inductive Err where
  | schemaViolation (msg : String)
  | duplicateIdentity (nodeId : String)
  | duplicateIdsFound
  | unresolvedReference (desc : String) (value : String)
  | kindMismatch (desc : String) (value : String) (kind : String)
  | ambiguousReference (desc : String) (value : String)
  | internalStopIteration
deriving DecidableEq

def kindEmptyMsg : String := "Node must have at least one kind when no source_kind is specified"

def kindLimitMsg : String := "Node cannot have more than 3 kinds"

def edgeKindMsg : String := "Edge must have a kind"

def propObjectMsg (key : String) : String :=
  "Property " ++ key ++ " cannot be an object - only primitive types and arrays allowed"

def propHomogeneousMsg (key : String) : String :=
  "Property " ++ key ++ " array must be homogeneous (all items same type)"

def propArrayObjectMsg (key : String) : String :=
  "Property " ++ key ++ " array cannot contain objects"

def mergeLimitMsg (nodeId : String) : String :=
  "Merging node " ++ nodeId ++ " would result in more than 3 kinds"

/-- Dropping of entries whose value is None, as in
the dict comprehension over self.properties.items(). -/
def stripNulls (m : PropMap) : PropMap :=
  List.filter (fun kv => !kv.2.isNull) m

/-- Python truthiness of an optional properties dict: None and the empty
dict are falsy. -/
def truthyProps : Option PropMap → Bool
  | some m => !m.isEmpty
  | none => false

/-- Python truthiness of an optional string, keeping the string when it is
truthy: None and the empty string are falsy. -/
def truthyOpt : Option String → Option String
  | some s => if s = "" then none else some s
  | none => none

/-- The properties dict of an optional map, the empty map when absent. -/
def propsOf : Option PropMap → PropMap
  | some m => m
  | none => []

/-- Validation of a single property entry: the body of the loop of
Node._validate_properties and Edge._validate_properties. -/
def checkPropEntry : String × Value → Except Err Unit
  | (key, v) =>
    if v.typeOf == .dict then
      .error (.schemaViolation (propObjectMsg key))
    else
      match v with
      | .list xs =>
        match xs with
        | [] => .ok ()
        | hd :: _ =>
          if !(xs.all (fun itm => pyIsinstance itm hd.typeOf)) then
            .error (.schemaViolation (propHomogeneousMsg key))
          else if xs.any (fun itm => itm.typeOf == .dict) then
            .error (.schemaViolation (propArrayObjectMsg key))
          else
            .ok ()
      | _ => .ok ()

/-- Node._validate_properties and Edge._validate_properties: check every
entry of the dict in order, stopping at the first violation. -/
def validate_properties : PropMap → Except Err Unit
  | [] => .ok ()
  | kv :: rest =>
    match checkPropEntry kv with
    | .error e => .error e
    | .ok _ => validate_properties rest

/-- Node._validate_kinds. -/
def validate_kinds (kinds : List String) (source_kind_available : Bool) : Except Err Unit :=
  if kinds.isEmpty && !source_kind_available then
    .error (.schemaViolation kindEmptyMsg)
  else if 3 < kinds.length then
    .error (.schemaViolation kindLimitMsg)
  else
    .ok ()

/-- A node of the graph (dataclass Node). -/
structure Node where
  id : String
  kinds : List String
  properties : Option PropMap
  source_kind_available : Bool

/-- Node construction (dataclass init plus __post_init__): validate kinds,
then, when the properties dict is truthy, strip null values and validate
the result. -/
def mkNode (id : String) (kinds : List String) (properties : Option PropMap)
    (source_kind_available : Bool) : Except Err Node :=
  match validate_kinds kinds source_kind_available with
  | .error e => .error e
  | .ok _ =>
    match properties with
    | some m =>
      if m.isEmpty then
        .ok (Node.mk id kinds (some m) source_kind_available)
      else
        match validate_properties (stripNulls m) with
        | .error e => .error e
        | .ok _ => .ok (Node.mk id kinds (some (stripNulls m)) source_kind_available)
    | none => .ok (Node.mk id kinds none source_kind_available)

/-- Node matching strategies (enum MatchBy). -/
inductive MatchBy where
  | id
  | name
deriving DecidableEq

/-- A reference to a node in an edge (dataclass NodeReference). -/
structure NodeReference where
  value : String
  match_by : MatchBy
  kind : Option String

/-- An edge of the graph (dataclass Edge). -/
structure Edge where
  start : NodeReference
  end_ : NodeReference
  kind : String
  properties : Option PropMap

/-- Edge construction (dataclass init plus __post_init__): the kind must
be truthy; a truthy properties dict is stripped of nulls and validated. -/
def mkEdge (start : NodeReference) (end_ : NodeReference) (kind : String)
    (properties : Option PropMap) : Except Err Edge :=
  if kind = "" then
    .error (.schemaViolation edgeKindMsg)
  else
    match properties with
    | some m =>
      if m.isEmpty then
        .ok (Edge.mk start end_ kind (some m))
      else
        match validate_properties (stripNulls m) with
        | .error e => .error e
        | .ok _ => .ok (Edge.mk start end_ kind (some (stripNulls m)))
    | none => .ok (Edge.mk start end_ kind none)

/-- The builder state (class OpenGraphBuilder): node list, edge list,
metadata (the optional source kind, present only when truthy at
construction) and the id index. -/
structure OpenGraphBuilder where
  nodes : List Node
  edges : List Edge
  metadata : Option String
  node_ids : List String

/-- OpenGraphBuilder.__init__: metadata is created only when the given
source kind is truthy (non-None and non-empty). -/
def mkBuilder (source_kind : Option String) : OpenGraphBuilder :=
  OpenGraphBuilder.mk [] [] (truthyOpt source_kind) []

/-- Result of a builder operation that in Python mutates objects in place
and may raise: on error the state at the moment of the raise is kept,
so that partially-applied mutations stay observable. -/
inductive OpResult (σ : Type) (α : Type) where
  | ok (state : σ) (val : α)
  | err (state : σ) (e : Err)

/-- The state carried by an operation result, whether it succeeded. -/
def OpResult.state : OpResult σ α → σ
  | .ok s _ => s
  | .err s _ => s

/-- Python dict item assignment d[key] = v on an insertion-ordered map:
overwrite in place when the key exists, append otherwise. -/
def dict_set (m : PropMap) (key : String) (v : Value) : PropMap :=
  if m.any (fun kv => kv.1 == key) then
    m.map (fun kv => if kv.1 == key then (key, v) else kv)
  else
    m ++ [(key, v)]

/-- The property-overlay loop of _merge_node_properties: assign every
entry of the update dict into the base dict, in order. -/
def overlayProps (base upd : PropMap) : PropMap :=
  upd.foldl (fun acc kv => dict_set acc kv.1 kv.2) base

/-- The property-merge step of _merge_node_properties: when the new
properties dict is truthy, adopt a copy of it if the existing node has
none, and otherwise overlay it entry by entry. -/
def mergePropsInto (n1 : Node) (new_node : Node) : Node :=
  if truthyProps new_node.properties then
    match n1.properties with
    | none => { n1 with properties := new_node.properties }
    | some em => { n1 with properties := some (overlayProps em (propsOf new_node.properties)) }
  else n1

/-- OpenGraphBuilder._merge_node_properties: union the new kinds into the
existing node's kinds (in place), then check the 3-kind limit, then merge
properties, then re-validate.  On failure the partially-mutated existing
node is returned with the error, as after a Python raise. -/
def merge_node_properties (existing_node new_node : Node) : OpResult Node Unit :=
  let mergedKinds :=
    new_node.kinds.foldl (fun ks k => if ks.contains k then ks else ks ++ [k]) existing_node.kinds
  let n1 : Node := { existing_node with kinds := mergedKinds }
  if 3 < mergedKinds.length then
    .err n1 (.schemaViolation (mergeLimitMsg existing_node.id))
  else
    let n2 : Node := mergePropsInto n1 new_node
    match validate_kinds n2.kinds n2.source_kind_available with
    | .error e => .err n2 e
    | .ok _ =>
      if truthyProps n2.properties then
        match validate_properties (propsOf n2.properties) with
        | .error e => .err n2 e
        | .ok _ => .ok n2 ()
      else .ok n2 ()

/-- Replacement of the first node with the given id, modelling the
in-place mutation of the object found by next(...) inside the list. -/
def replaceFirstById (ns : List Node) (i : String) (n' : Node) : List Node :=
  match ns with
  | [] => []
  | n :: rest => if n.id == i then n' :: rest else n :: replaceFirstById rest i n'

/-- OpenGraphBuilder.add_node. -/
def add_node (b : OpenGraphBuilder) (node : Node) (merge_properties : Bool) :
    OpResult OpenGraphBuilder Node :=
  if b.node_ids.contains node.id then
    if !merge_properties then
      .err b (.duplicateIdentity node.id)
    else
      match b.nodes.find? (fun n => n.id == node.id) with
      | none => .err b .internalStopIteration
      | some existing_node =>
        match merge_node_properties existing_node node with
        | .ok ex' _ => .ok { b with nodes := replaceFirstById b.nodes node.id ex' } ex'
        | .err ex' e => .err { b with nodes := replaceFirstById b.nodes node.id ex' } e
  else
    let node' := { node with source_kind_available := b.metadata.isSome }
    .ok { b with nodes := b.nodes ++ [node'], node_ids := b.node_ids ++ [node.id] } node'

/-- OpenGraphBuilder.create_node. -/
def create_node (b : OpenGraphBuilder) (id : String) (kinds : List String)
    (properties : Option PropMap) (merge_properties : Bool) :
    OpResult OpenGraphBuilder Node :=
  if b.node_ids.contains id then
    if !merge_properties then
      .err b (.duplicateIdentity id)
    else
      match b.nodes.find? (fun n => n.id == id) with
      | none => .err b .internalStopIteration
      | some existing_node =>
        match mkNode id kinds properties b.metadata.isSome with
        | .error e => .err b e
        | .ok new_node =>
          match merge_node_properties existing_node new_node with
          | .ok ex' _ => .ok { b with nodes := replaceFirstById b.nodes id ex' } ex'
          | .err ex' e => .err { b with nodes := replaceFirstById b.nodes id ex' } e
  else
    match mkNode id kinds properties b.metadata.isSome with
    | .error e => .err b e
    | .ok node => .ok { b with nodes := b.nodes ++ [node], node_ids := b.node_ids ++ [id] } node

/-- OpenGraphBuilder.add_edge. -/
def add_edge (b : OpenGraphBuilder) (edge : Edge) : OpenGraphBuilder :=
  { b with edges := b.edges ++ [edge] }

/-- OpenGraphBuilder.create_edge: build the two references and the edge,
append it on success. -/
def create_edge (b : OpenGraphBuilder) (start_value end_value : String) (kind : String)
    (start_match_by end_match_by : MatchBy) (start_kind end_kind : Option String)
    (properties : Option PropMap) : OpResult OpenGraphBuilder Edge :=
  match mkEdge (NodeReference.mk start_value start_match_by start_kind)
      (NodeReference.mk end_value end_match_by end_kind) kind properties with
  | .error e => .err b e
  | .ok edge => .ok (add_edge b edge) edge

/-- The string stored for a MatchBy enum member (its value attribute). -/
def matchByStr : MatchBy → String
  | .id => "id"
  | .name => "name"

/-- Serialized form of a NodeReference (NodeReference.to_dict): the kind
key is present only when the kind filter is truthy. -/
structure RefDoc where
  value : String
  match_by : String
  kind : Option String

/-- Serialized form of a Node (Node.to_dict): the properties key is
present only when the stripped dict is non-empty. -/
structure NodeDoc where
  id : String
  kinds : List String
  properties : Option PropMap

/-- Serialized form of an Edge (Edge.to_dict). -/
structure EdgeDoc where
  start : RefDoc
  end_ : RefDoc
  kind : String
  properties : Option PropMap

/-- The structured document produced by OpenGraphBuilder.to_dict: the
node and edge arrays of the graph object, and the optional top-level
metadata object (holding the source kind). -/
structure GraphDoc where
  nodes : List NodeDoc
  edges : List EdgeDoc
  metadata : Option String

/-- NodeReference.to_dict. -/
def ref_to_dict (r : NodeReference) : RefDoc :=
  RefDoc.mk r.value (matchByStr r.match_by) (truthyOpt r.kind)

/-- Serialization of an optional properties dict: strip null values and
omit the key entirely when the result is empty. -/
def props_to_dict : Option PropMap → Option PropMap
  | none => none
  | some m =>
    let props := stripNulls m
    if props.isEmpty then none else some props

/-- Node.to_dict. -/
def node_to_dict (n : Node) : NodeDoc :=
  NodeDoc.mk n.id n.kinds (props_to_dict n.properties)

/-- Edge.to_dict. -/
def edge_to_dict (e : Edge) : EdgeDoc :=
  EdgeDoc.mk (ref_to_dict e.start) (ref_to_dict e.end_) e.kind (props_to_dict e.properties)

/-- OpenGraphBuilder.to_dict: nodes and edges in insertion order; the
metadata key is emitted only when the metadata and its source kind are
truthy. -/
def to_dict (b : OpenGraphBuilder) : GraphDoc :=
  GraphDoc.mk (b.nodes.map node_to_dict) (b.edges.map edge_to_dict) (truthyOpt b.metadata)

/-- The nodes_by_id lookup dict built by _validate_edge_references: a
dict comprehension, so a later node with the same id wins. -/
def lookupById (ns : List Node) (v : String) : Option Node :=
  ns.reverse.find? (fun n => n.id == v)

/-- Python dict access d[k] for the ordered-map model: the value of the
first entry with the given key. -/
def lookupKey (k : String) : PropMap → Option Value
  | [] => none
  | kv :: rest => if kv.1 == k then some kv.2 else lookupKey k rest

/-- The candidate list stored by the nodes_by_name index for one name:
nodes whose properties contain a string valued name entry equal to it, in
insertion order (a single node is stored bare, two or more as a list; the
distinction is recovered from the length below). -/
def nameCandidates (ns : List Node) (v : String) : List Node :=
  ns.filter (fun n =>
    match lookupKey ("name") (propsOf n.properties) with
    | some (.str s) => s == v
    | _ => false)

/-- OpenGraphBuilder._validate_node_reference. -/
def validate_node_reference (ref : NodeReference) (desc : String) (ns : List Node) :
    Except Err Unit :=
  match ref.match_by with
  | .id =>
    match lookupById ns ref.value with
    | none => .error (.unresolvedReference desc ref.value)
    | some node =>
      match truthyOpt ref.kind with
      | none => .ok ()
      | some k =>
        if node.kinds.contains k then .ok ()
        else .error (.kindMismatch desc ref.value k)
  | .name =>
    match nameCandidates ns ref.value with
    | [] => .error (.unresolvedReference desc ref.value)
    | [n] =>
      match truthyOpt ref.kind with
      | none => .ok ()
      | some k =>
        if n.kinds.contains k then .ok ()
        else .error (.kindMismatch desc ref.value k)
    | c1 :: c2 :: cs =>
      match truthyOpt ref.kind with
      | none => .error (.ambiguousReference desc ref.value)
      | some k =>
        let matching_nodes := (c1 :: c2 :: cs).filter (fun n => n.kinds.contains k)
        if matching_nodes.isEmpty then
          .error (.unresolvedReference desc ref.value)
        else if 1 < matching_nodes.length then
          .error (.ambiguousReference desc ref.value)
        else
          .ok ()

/-- The edge loop of OpenGraphBuilder._validate_edge_references. -/
def validate_edges_from (ns : List Node) (i : Nat) : List Edge → Except Err Unit
  | [] => .ok ()
  | e :: rest =>
    match validate_node_reference e.start ("edge " ++ toString i ++ " start") ns with
    | .error er => .error er
    | .ok _ =>
      match validate_node_reference e.end_ ("edge " ++ toString i ++ " end") ns with
      | .error er => .error er
      | .ok _ => validate_edges_from ns (i + 1) rest

/-- OpenGraphBuilder._validate_edge_references. -/
def validate_edge_references (b : OpenGraphBuilder) : Except Err Unit :=
  if b.edges.isEmpty then .ok ()
  else validate_edges_from b.nodes 0 b.edges

/-- OpenGraphBuilder.validate: duplicate-id check, then resolution of
every edge endpoint; returns true when everything passes. -/
def validate (b : OpenGraphBuilder) : Except Err Bool :=
  let ids := b.nodes.map (fun n => n.id)
  if ids.length ≠ ids.eraseDups.length then
    .error .duplicateIdsFound
  else
    match validate_edge_references b with
    | .error e => .error e
    | .ok _ => .ok true

/-- Specification-side description of the kind union: the incoming kinds
not already present among the seen ones, in first-seen order, each newly
appended kind counting as seen for the rest. -/
def newKinds (seen : List String) : List String → List String
  | [] => []
  | k :: ks => if seen.contains k then newKinds seen ks else k :: newKinds (seen ++ [k]) ks

/-- First defined of two optional values. -/
def firstSome (a b : Option Value) : Option Value :=
  match a with
  | some v => some v
  | none => b

/-- Observable content of a node: id, kinds, null-stripped property map
and the source-kind flag.  Both a missing and an empty property dict are
observed as the empty map, matching what serialization can distinguish. -/
def nodeObs (n : Node) : String × List String × PropMap × Bool :=
  (n.id, n.kinds, stripNulls (propsOf n.properties), n.source_kind_available)

/-- Observable content of a node reference: value, matching strategy and
the truthy kind filter (an empty-string filter behaves as no filter in
both resolution and serialization). -/
def refObs (r : NodeReference) : String × MatchBy × Option String :=
  (r.value, r.match_by, truthyOpt r.kind)

/-- Observable content of an edge. -/
def edgeObs (e : Edge) : (String × MatchBy × Option String) × (String × MatchBy × Option String) × String × PropMap :=
  (refObs e.start, refObs e.end_, e.kind, stripNulls (propsOf e.properties))

/-- Check that an Except-valued validation succeeded. -/
def exceptOk : Except Err Unit → Bool
  | .ok _ => true
  | .error _ => false

/-- An optional property map already in stored form: the null values were
stripped at construction and the map passed validation. -/
def storedProps : Option PropMap → Bool
  | none => true
  | some m => m.all (fun kv => !kv.2.isNull) && exceptOk (validate_properties m)

/-- A node as the builder API stores it: flag consistent with the graph
metadata, kinds valid, properties stripped and valid. -/
def nodeWF (md : Option String) (n : Node) : Bool :=
  (n.source_kind_available == md.isSome)
    && exceptOk (validate_kinds n.kinds n.source_kind_available)
    && storedProps n.properties

/-- An edge as the builder API stores it. -/
def edgeWF (e : Edge) : Bool :=
  (e.kind != "") && storedProps e.properties

/-- A builder state reachable through the API: metadata never holds the
empty string, node ids are unique, and every stored node and edge is in
stored form. -/
abbrev WF (b : OpenGraphBuilder) : Prop :=
  b.metadata ≠ some ""
    ∧ (b.nodes.map (fun n => n.id)).Nodup
    ∧ b.nodes.all (nodeWF b.metadata) = true
    ∧ b.edges.all edgeWF = true

/-- Modelled from the spec: the reverse direction of the round-trip
property, absent from the repository (there is no document parser).  The
stored match_by string is mapped back to the enum. -/
def matchByOfString (s : String) : MatchBy :=
  if s = "name" then .name else .id

/-- Modelled from the spec: rebuild a NodeReference from the values of
its serialized form. -/
def refOfDoc (r : RefDoc) : NodeReference :=
  NodeReference.mk r.value (matchByOfString r.match_by) r.kind

/-- Modelled from the spec: re-create each serialized node, in order,
through the builder API. -/
def rebuildNodes (b : OpenGraphBuilder) : List NodeDoc → Except Err OpenGraphBuilder
  | [] => .ok b
  | nd :: rest =>
    match create_node b nd.id nd.kinds nd.properties true with
    | .ok b' _ => rebuildNodes b' rest
    | .err _ e => .error e

/-- Modelled from the spec: re-create each serialized edge, in order,
through the builder API. -/
def rebuildEdges (b : OpenGraphBuilder) : List EdgeDoc → Except Err OpenGraphBuilder
  | [] => .ok b
  | ed :: rest =>
    match mkEdge (refOfDoc ed.start) (refOfDoc ed.end_) ed.kind ed.properties with
    | .error e => .error e
    | .ok e => rebuildEdges (add_edge b e) rest

/-- Modelled from the spec: reconstruct a whole graph from the values of
the structured document — metadata source kind, then nodes, then edges. -/
def rebuild (d : GraphDoc) : Except Err OpenGraphBuilder :=
  match rebuildNodes (mkBuilder d.metadata) d.nodes with
  | .error e => .error e
  | .ok b => rebuildEdges b d.edges

/-- The node the builder stores when a serialized node is re-created
against metadata md: same id and kinds, the serialized (null-stripped,
possibly omitted) properties, and the flag derived from md. -/
def rebuiltNode (md : Option String) (n : Node) : Node :=
  Node.mk n.id n.kinds (props_to_dict n.properties) md.isSome

/-- The edge the builder stores when a serialized edge is re-created. -/
def rebuiltEdge (e : Edge) : Edge :=
  Edge.mk (refOfDoc (ref_to_dict e.start)) (refOfDoc (ref_to_dict e.end_)) e.kind
    (props_to_dict e.properties)

theorem mkNode_flag (id : String) (kinds : List String) (props : Option PropMap)
    (ska : Bool) (n : Node) (h : mkNode id kinds props ska = .ok n) :
    n.source_kind_available = ska := by
  unfold mkNode at h
  cases hv : validate_kinds kinds ska with
  | error e => rw [hv] at h; exact Except.noConfusion h
  | ok u =>
    rw [hv] at h
    cases props with
    | none => cases h; rfl
    | some m =>
      dsimp only at h
      by_cases hm : m.isEmpty = true
      · rw [if_pos hm] at h; cases h; rfl
      · rw [if_neg hm] at h
        cases hp : validate_properties (stripNulls m) with
        | error e => rw [hp] at h; exact Except.noConfusion h
        | ok u2 => rw [hp] at h; cases h; rfl

theorem add_node_of_not_mem (b : OpenGraphBuilder) (node : Node) (mp : Bool)
    (h : node.id ∉ b.node_ids) :
    add_node b node mp
      = .ok { b with
                nodes := b.nodes ++ [{ node with source_kind_available := b.metadata.isSome }],
                node_ids := b.node_ids ++ [node.id] }
          { node with source_kind_available := b.metadata.isSome } := by
  simp [add_node, h]

theorem create_node_of_not_mem (b : OpenGraphBuilder) (id : String) (kinds : List String)
    (props : Option PropMap) (mp : Bool) (h : id ∉ b.node_ids) :
    create_node b id kinds props mp
      = match mkNode id kinds props b.metadata.isSome with
        | .error e => .err b e
        | .ok node =>
          .ok { b with nodes := b.nodes ++ [node], node_ids := b.node_ids ++ [id] } node := by
  simp [create_node, h]

theorem validate_kinds_error_of_gt (kinds : List String) (ska : Bool)
    (h : 3 < kinds.length) :
    validate_kinds kinds ska = .error (.schemaViolation kindLimitMsg) := by
  have hne : kinds.isEmpty = false := by
    cases kinds with
    | nil => simp at h
    | cons a l => rfl
  simp [validate_kinds, hne, h]

/-- C3: node kind-count bounds at construction.  With no source kind
available, an empty kinds list fails with SchemaViolation; regardless of
the flag, more than 3 kinds fails with SchemaViolation; zero kinds with
the flag set, or one to three kinds, pass the kind rule. -/
theorem claim3_kind_bounds (id : String) (kinds : List String) (props : Option PropMap)
    (ska : Bool) :
    (kinds = [] → ska = false →
      mkNode id kinds props ska = .error (.schemaViolation kindEmptyMsg))
    ∧ (3 < kinds.length →
      mkNode id kinds props ska = .error (.schemaViolation kindLimitMsg))
    ∧ (kinds.length ≤ 3 → (kinds ≠ [] ∨ ska = true) →
      validate_kinds kinds ska = .ok ()) := by
  refine ⟨?_, ?_, ?_⟩
  · intro h1 h2
    subst h1; subst h2
    rfl
  · intro h
    unfold mkNode
    rw [validate_kinds_error_of_gt kinds ska h]
  · intro h1 h2
    have hc : (kinds.isEmpty && !ska) = false := by
      rcases h2 with h2 | h2
      · have : kinds.isEmpty = false := by
          cases kinds with
          | nil => exact absurd rfl h2
          | cons a l => rfl
        simp [this]
      · simp [h2]
    simp [validate_kinds, hc, Nat.not_lt.mpr h1]

/-- C3 witness: concrete instances of each bound. -/
theorem claim3_kind_bounds_witness :
    mkNode ("n") [] none false = .error (.schemaViolation kindEmptyMsg)
    ∧ mkNode ("n") [("a"), ("b"), ("c"), ("d")] none true
        = .error (.schemaViolation kindLimitMsg)
    ∧ validate_kinds [] true = .ok ()
    ∧ validate_kinds [("a")] false = .ok () :=
  ⟨(claim3_kind_bounds ("n") [] none false).1 rfl rfl,
   (claim3_kind_bounds ("n") [("a"), ("b"), ("c"), ("d")] none true).2.1 (by decide),
   (claim3_kind_bounds ("n") [] none true).2.2 (by decide) (Or.inr rfl),
   (claim3_kind_bounds ("n") [("a")] none false).2.2 (by decide) (Or.inl (by decide))⟩

/-- C7: a second add of an already-present id with merging disabled fails
with DuplicateIdentity naming the id, and the builder state returned with
the error is exactly the state before the call, for both add_node and
create_node. -/
theorem claim7_duplicate_identity (b : OpenGraphBuilder) (node : Node) (id : String)
    (kinds : List String) (props : Option PropMap)
    (hn : node.id ∈ b.node_ids) (hi : id ∈ b.node_ids) :
    add_node b node false = .err b (.duplicateIdentity node.id)
    ∧ create_node b id kinds props false = .err b (.duplicateIdentity id) := by
  constructor
  · simp [add_node, hn]
  · simp [create_node, hi]

/-- C7 witness: a concrete duplicate id with merging disabled. -/
theorem claim7_duplicate_identity_witness :
    add_node (OpenGraphBuilder.mk [Node.mk ("x") [("User")] none false] [] none [("x")])
        (Node.mk ("x") [("Person")] none false) false
      = .err (OpenGraphBuilder.mk [Node.mk ("x") [("User")] none false] [] none [("x")])
          (.duplicateIdentity ("x"))
    ∧ create_node (OpenGraphBuilder.mk [Node.mk ("x") [("User")] none false] [] none [("x")])
        ("x") [("Person")] none false
      = .err (OpenGraphBuilder.mk [Node.mk ("x") [("User")] none false] [] none [("x")])
          (.duplicateIdentity ("x")) :=
  claim7_duplicate_identity
    (OpenGraphBuilder.mk [Node.mk ("x") [("User")] none false] [] none [("x")])
    (Node.mk ("x") [("Person")] none false) ("x") [("Person")] none
    (by decide) (by decide)

/-- C9: add_node with a fresh id never raises: it overwrites the node's
source-kind flag from the builder metadata and appends it with no
re-validation, whatever the node contains. -/
theorem claim9_add_node_fresh (b : OpenGraphBuilder) (node : Node) (mp : Bool)
    (h : node.id ∉ b.node_ids) :
    add_node b node mp
      = .ok { b with
                nodes := b.nodes ++ [{ node with source_kind_available := b.metadata.isSome }],
                node_ids := b.node_ids ++ [node.id] }
          { node with source_kind_available := b.metadata.isSome } :=
  add_node_of_not_mem b node mp h

/-- C9 witness: a node built with the flag set and zero kinds is accepted
unchanged by a builder with no source attribution, and is stored with the
flag cleared and empty kinds. -/
theorem claim9_add_node_fresh_witness :
    mkNode ("n") [] none true = .ok (Node.mk ("n") [] none true)
    ∧ add_node (mkBuilder none) (Node.mk ("n") [] none true) true
      = .ok (OpenGraphBuilder.mk [Node.mk ("n") [] none false] [] none [("n")])
          (Node.mk ("n") [] none false) :=
  ⟨rfl, claim9_add_node_fresh (mkBuilder none) (Node.mk ("n") [] none true) true
    (List.not_mem_nil ("n"))⟩

/-- C10: a builder constructed with an empty-string source kind equals one
constructed with no source kind; nodes created through it get the flag
cleared; creating a node with empty kinds through it fails with
SchemaViolation; and a builder without metadata serializes no metadata
key. -/
theorem claim10_empty_source_kind (b : OpenGraphBuilder) :
    mkBuilder (some "") = mkBuilder none
    ∧ (∀ id kinds props mp b' n,
        create_node (mkBuilder (some "")) id kinds props mp = .ok b' n →
        n.source_kind_available = false)
    ∧ (∀ node mp b' n,
        add_node (mkBuilder (some "")) node mp = .ok b' n →
        n.source_kind_available = false)
    ∧ (∀ id props mp, create_node (mkBuilder (some "")) id [] props mp
        = .err (mkBuilder (some "")) (.schemaViolation kindEmptyMsg))
    ∧ (b.metadata = none → (to_dict b).metadata = none) := by
  refine ⟨rfl, ?_, ?_, ?_, ?_⟩
  · intro id kinds props mp b' n h
    rw [create_node_of_not_mem _ _ _ _ _ (List.not_mem_nil id)] at h
    cases hmk : mkNode id kinds props (mkBuilder (some "")).metadata.isSome with
    | error e => rw [hmk] at h; exact OpResult.noConfusion h
    | ok node =>
      rw [hmk] at h
      cases h
      exact mkNode_flag _ _ _ _ _ hmk
  · intro node mp b' n h
    rw [add_node_of_not_mem _ _ _ (List.not_mem_nil node.id)] at h
    cases h
    rfl
  · intro id props mp
    rfl
  · intro h
    simp [to_dict, h, truthyOpt]

/-- C10 witness: concrete empty-string source kind. -/
theorem claim10_empty_source_kind_witness :
    create_node (mkBuilder (some "")) ("x") [] none true
      = .err (mkBuilder (some "")) (.schemaViolation kindEmptyMsg)
    ∧ (to_dict (mkBuilder (some ""))).metadata = none :=
  ⟨(claim10_empty_source_kind (mkBuilder (some ""))).2.2.2.1 ("x") none true,
   (claim10_empty_source_kind (mkBuilder (some ""))).2.2.2.2 rfl⟩

/-- C5 counterexample: the array [1, true] mixes the runtime types int
and bool, yet node construction accepts it, because the homogeneity check
of the source uses isinstance and Python bool is a subclass of int.  The
claim as stated says any array whose element has a runtime type different
from the first element's raises SchemaViolation. -/
theorem claim5_counterexample :
    checkPropEntry (("a"), .list [.int 1, .bool true]) = .ok ()
    ∧ (Value.bool true).typeOf ≠ (Value.int 1).typeOf
    ∧ mkNode ("n") [("User")] (some [(("a"), .list [.int 1, .bool true])]) false
        = .ok (Node.mk ("n") [("User")] (some [(("a"), .list [.int 1, .bool true])]) false) :=
  ⟨rfl, by decide, rfl⟩

/-- C5 (amended): empty arrays always pass; a non-empty array with an
element that is not an isinstance-match of the first element's runtime
type (bool counting as an instance of int) fails with SchemaViolation; an
isinstance-homogeneous array containing an object fails with
SchemaViolation; a value that is itself an object fails with
SchemaViolation; and the map validator passes a map exactly when it
passes every entry. -/
theorem claim5_array_validation (key : String) (v : Value) (hd : Value) (tl : List Value)
    (m : PropMap) :
    checkPropEntry (key, .list []) = .ok ()
    ∧ ((hd :: tl).all (fun itm => pyIsinstance itm hd.typeOf) = false →
        checkPropEntry (key, .list (hd :: tl))
          = .error (.schemaViolation (propHomogeneousMsg key)))
    ∧ ((hd :: tl).all (fun itm => pyIsinstance itm hd.typeOf) = true →
        (hd :: tl).any (fun itm => itm.typeOf == .dict) = true →
        checkPropEntry (key, .list (hd :: tl))
          = .error (.schemaViolation (propArrayObjectMsg key)))
    ∧ (v.typeOf = .dict →
        checkPropEntry (key, v) = .error (.schemaViolation (propObjectMsg key)))
    ∧ (validate_properties m = .ok () ↔ ∀ kv ∈ m, checkPropEntry kv = .ok ()) := by
  refine ⟨rfl, ?_, ?_, ?_, ?_⟩
  · intro h
    have e1 : checkPropEntry (key, .list (hd :: tl))
        = if !((hd :: tl).all (fun itm => pyIsinstance itm hd.typeOf)) then
            Except.error (Err.schemaViolation (propHomogeneousMsg key))
          else if (hd :: tl).any (fun itm => itm.typeOf == PType.dict) then
            Except.error (Err.schemaViolation (propArrayObjectMsg key))
          else .ok () := rfl
    rw [e1, h]
    rfl
  · intro h1 h2
    have e1 : checkPropEntry (key, .list (hd :: tl))
        = if !((hd :: tl).all (fun itm => pyIsinstance itm hd.typeOf)) then
            Except.error (Err.schemaViolation (propHomogeneousMsg key))
          else if (hd :: tl).any (fun itm => itm.typeOf == PType.dict) then
            Except.error (Err.schemaViolation (propArrayObjectMsg key))
          else .ok () := rfl
    rw [e1, h1, h2]
    rfl
  · intro h
    cases v with
    | dict es => rfl
    | str s => exact absurd h (by simp [Value.typeOf])
    | int n => exact absurd h (by simp [Value.typeOf])
    | float q => exact absurd h (by simp [Value.typeOf])
    | bool b => exact absurd h (by simp [Value.typeOf])
    | null => exact absurd h (by simp [Value.typeOf])
    | list xs => exact absurd h (by simp [Value.typeOf])
  · induction m with
    | nil => simp [validate_properties]
    | cons kv rest ih =>
      cases hk : checkPropEntry kv with
      | error e =>
        simp only [validate_properties, hk]
        constructor
        · intro hcontr; exact Except.noConfusion hcontr
        · intro hall
          exact absurd (hall kv (List.mem_cons_self kv rest)) (by simp [hk])
      | ok u =>
        simp only [validate_properties, hk]
        rw [ih]
        constructor
        · intro hall kv2 hm
          rcases List.mem_cons.mp hm with he | hm2
          · subst he; exact hk
          · exact hall kv2 hm2
        · intro hall kv2 hm
          exact hall kv2 (List.mem_cons_of_mem kv hm)

/-- C5 witness: the concrete examples of the claim, at the entry check
and through node construction. -/
theorem claim5_array_validation_witness :
    checkPropEntry (("a"), .list [.int 1, .str ("two")])
      = .error (.schemaViolation (propHomogeneousMsg ("a")))
    ∧ checkPropEntry (("a"), .list [.dict [(("x"), .int 1)]])
      = .error (.schemaViolation (propArrayObjectMsg ("a")))
    ∧ checkPropEntry (("a"), .dict [])
      = .error (.schemaViolation (propObjectMsg ("a")))
    ∧ mkNode ("n") [("U")] (some [(("a"), .list [.int 1, .str ("two")])]) false
      = .error (.schemaViolation (propHomogeneousMsg ("a")))
    ∧ mkNode ("n") [("U")] (some [(("a"), .list [.int 1, .int 2, .int 3])]) false
      = .ok (Node.mk ("n") [("U")] (some [(("a"), .list [.int 1, .int 2, .int 3])]) false)
    ∧ mkNode ("n") [("U")] (some [(("a"), .list [.dict [(("x"), .int 1)]])]) false
      = .error (.schemaViolation (propArrayObjectMsg ("a"))) :=
  ⟨(claim5_array_validation ("a") (.dict []) (.int 1) [.str ("two")] []).2.1 rfl,
   (claim5_array_validation ("a") (.dict []) (.dict [(("x"), .int 1)]) [] []).2.2.1 rfl rfl,
   (claim5_array_validation ("a") (.dict []) (.int 1) [] []).2.2.2.1 rfl,
   rfl, rfl, rfl⟩

/-- C2: name-based resolution with two or more candidates.  With no
truthy kind filter the reference fails with AmbiguousReference; with a
filter, the candidates are narrowed to the nodes whose kinds contain it,
and zero remaining candidates fails with UnresolvedReference, exactly one
succeeds, and two or more fail with AmbiguousReference. -/
theorem claim2_name_resolution (ns : List Node) (r : NodeReference) (d : String)
    (hmb : r.match_by = .name)
    (hmulti : 2 ≤ (nameCandidates ns r.value).length) :
    (truthyOpt r.kind = none →
      validate_node_reference r d ns = .error (.ambiguousReference d r.value))
    ∧ (∀ k, truthyOpt r.kind = some k →
        ((nameCandidates ns r.value).filter (fun n => n.kinds.contains k) = [] →
          validate_node_reference r d ns = .error (.unresolvedReference d r.value))
        ∧ (∀ n0, (nameCandidates ns r.value).filter (fun n => n.kinds.contains k) = [n0] →
          validate_node_reference r d ns = .ok ())
        ∧ (2 ≤ ((nameCandidates ns r.value).filter (fun n => n.kinds.contains k)).length →
          validate_node_reference r d ns = .error (.ambiguousReference d r.value))) := by
  cases hc : nameCandidates ns r.value with
  | nil => rw [hc] at hmulti; simp at hmulti
  | cons c1 rest =>
    cases rest with
    | nil => rw [hc] at hmulti; simp at hmulti
    | cons c2 cs =>
      have base : validate_node_reference r d ns
          = match truthyOpt r.kind with
            | none => .error (.ambiguousReference d r.value)
            | some k =>
              if ((c1 :: c2 :: cs).filter (fun n => n.kinds.contains k)).isEmpty then
                .error (.unresolvedReference d r.value)
              else if 1 < ((c1 :: c2 :: cs).filter (fun n => n.kinds.contains k)).length then
                .error (.ambiguousReference d r.value)
              else
                .ok () := by
        unfold validate_node_reference
        rw [hmb]
        rw [hc]
      constructor
      · intro hk
        rw [base, hk]
      · intro k hk
        rw [base, hk]
        dsimp only
        refine ⟨?_, ?_, ?_⟩
        · intro hf
          rw [hf]
          rfl
        · intro n0 hf
          rw [hf]
          rfl
        · intro hlen
          have hne : ((c1 :: c2 :: cs).filter (fun n => n.kinds.contains k)).isEmpty = false := by
            cases hff : (c1 :: c2 :: cs).filter (fun n => n.kinds.contains k) with
            | nil => rw [hff] at hlen; simp at hlen
            | cons x xs => rfl
          rw [hne]
          simp only [Bool.false_eq_true, if_false]
          exact if_pos hlen

/-- C2 witness: two nodes named alice with kinds User and Computer; no
filter is ambiguous, filter User resolves (to exactly the first node),
filter Admin is unresolved. -/
theorem claim2_name_resolution_witness :
    validate_node_reference (NodeReference.mk ("alice") .name none) ("edge 0 start")
        [Node.mk ("1") [("User")] (some [(("name"), .str ("alice"))]) false,
         Node.mk ("2") [("Computer")] (some [(("name"), .str ("alice"))]) false]
      = .error (.ambiguousReference ("edge 0 start") ("alice"))
    ∧ validate_node_reference (NodeReference.mk ("alice") .name (some ("User"))) ("edge 0 start")
        [Node.mk ("1") [("User")] (some [(("name"), .str ("alice"))]) false,
         Node.mk ("2") [("Computer")] (some [(("name"), .str ("alice"))]) false]
      = .ok ()
    ∧ (nameCandidates
        [Node.mk ("1") [("User")] (some [(("name"), .str ("alice"))]) false,
         Node.mk ("2") [("Computer")] (some [(("name"), .str ("alice"))]) false]
        ("alice")).filter (fun n => n.kinds.contains ("User"))
      = [Node.mk ("1") [("User")] (some [(("name"), .str ("alice"))]) false]
    ∧ validate_node_reference (NodeReference.mk ("alice") .name (some ("Admin"))) ("edge 0 start")
        [Node.mk ("1") [("User")] (some [(("name"), .str ("alice"))]) false,
         Node.mk ("2") [("Computer")] (some [(("name"), .str ("alice"))]) false]
      = .error (.unresolvedReference ("edge 0 start") ("alice")) :=
  ⟨(claim2_name_resolution
      [Node.mk ("1") [("User")] (some [(("name"), .str ("alice"))]) false,
       Node.mk ("2") [("Computer")] (some [(("name"), .str ("alice"))]) false]
      (NodeReference.mk ("alice") .name none) ("edge 0 start") rfl (by decide)).1 rfl,
   (((claim2_name_resolution
      [Node.mk ("1") [("User")] (some [(("name"), .str ("alice"))]) false,
       Node.mk ("2") [("Computer")] (some [(("name"), .str ("alice"))]) false]
      (NodeReference.mk ("alice") .name (some ("User"))) ("edge 0 start") rfl
      (by decide)).2 ("User") rfl).2.1
      (Node.mk ("1") [("User")] (some [(("name"), .str ("alice"))]) false) rfl),
   rfl,
   (((claim2_name_resolution
      [Node.mk ("1") [("User")] (some [(("name"), .str ("alice"))]) false,
       Node.mk ("2") [("Computer")] (some [(("name"), .str ("alice"))]) false]
      (NodeReference.mk ("alice") .name (some ("Admin"))) ("edge 0 start") rfl
      (by decide)).2 ("Admin") rfl).1 rfl)⟩

/-- C8: the serialized document lists nodes and edges in insertion order;
a node or edge properties key is omitted exactly when the stored map is
empty after null-stripping or absent, and is otherwise the non-empty
stripped map; and the top-level metadata is the truthy source kind, which
for a freshly constructed builder is present exactly when a non-empty
source kind was given. -/
theorem claim8_document_shape (b : OpenGraphBuilder) :
    (to_dict b).nodes = b.nodes.map node_to_dict
    ∧ (to_dict b).nodes.map (fun nd => nd.id) = b.nodes.map (fun n => n.id)
    ∧ (to_dict b).edges.map (fun ed => ed.kind) = b.edges.map (fun e => e.kind)
    ∧ (∀ n : Node, ((node_to_dict n).properties = none
        ↔ stripNulls (propsOf n.properties) = []))
    ∧ (∀ n : Node, ∀ p, (node_to_dict n).properties = some p →
        p ≠ [] ∧ p = stripNulls (propsOf n.properties))
    ∧ (∀ e : Edge, ((edge_to_dict e).properties = none
        ↔ stripNulls (propsOf e.properties) = []))
    ∧ (to_dict b).metadata = truthyOpt b.metadata
    ∧ (∀ sk s, ((mkBuilder sk).metadata = some s ↔ sk = some s ∧ s ≠ "")) := by
  refine ⟨rfl, ?_, ?_, ?_, ?_, ?_, rfl, ?_⟩
  · rw [show (to_dict b).nodes = b.nodes.map node_to_dict from rfl, List.map_map]
    rfl
  · rw [show (to_dict b).edges = b.edges.map edge_to_dict from rfl, List.map_map]
    rfl
  · intro n
    cases hp : n.properties with
    | none => simp [node_to_dict, props_to_dict, hp, propsOf, stripNulls]
    | some m =>
      simp only [node_to_dict, props_to_dict, propsOf, hp]
      by_cases hm : (stripNulls m).isEmpty = true
      · rw [if_pos hm]
        simp [List.isEmpty_iff.mp hm]
      · rw [if_neg hm]
        constructor
        · intro hcontr; exact Option.noConfusion hcontr
        · intro hnil; exact absurd (by simp [hnil] : (stripNulls m).isEmpty = true) hm
  · intro n p hp
    cases hq : n.properties with
    | none => rw [show (node_to_dict n).properties = props_to_dict n.properties from rfl, hq] at hp
              exact Option.noConfusion hp
    | some m =>
      rw [show (node_to_dict n).properties = props_to_dict n.properties from rfl, hq] at hp
      simp only [props_to_dict] at hp
      by_cases hm : (stripNulls m).isEmpty = true
      · rw [if_pos hm] at hp; exact Option.noConfusion hp
      · rw [if_neg hm] at hp
        cases hp
        refine ⟨?_, by simp [propsOf, hq]⟩
        intro hnil
        exact hm (by simp [hnil])
  · intro e
    cases hp : e.properties with
    | none => simp [edge_to_dict, props_to_dict, hp, propsOf, stripNulls]
    | some m =>
      simp only [edge_to_dict, props_to_dict, propsOf, hp]
      by_cases hm : (stripNulls m).isEmpty = true
      · rw [if_pos hm]
        simp [List.isEmpty_iff.mp hm]
      · rw [if_neg hm]
        constructor
        · intro hcontr; exact Option.noConfusion hcontr
        · intro hnil; exact absurd (by simp [hnil] : (stripNulls m).isEmpty = true) hm
  · intro sk s
    cases sk with
    | none => simp [mkBuilder, truthyOpt]
    | some t =>
      by_cases ht : t = ""
      · subst ht
        simp only [mkBuilder, truthyOpt, if_pos rfl]
        constructor
        · intro hs; exact Option.noConfusion hs
        · intro hs
          exact absurd (Option.some.inj hs.1).symm hs.2
      · simp only [mkBuilder, truthyOpt, if_neg ht]
        constructor
        · intro hs
          refine ⟨hs, ?_⟩
          rw [(Option.some.inj hs).symm]
          exact ht
        · intro hs
          exact hs.1

/-- C8 witness: a concrete builder exercising property omission and
metadata emission. -/
theorem claim8_document_shape_witness :
    (to_dict (OpenGraphBuilder.mk
        [Node.mk ("a") [("U")] (some [(("x"), .null)]) true,
         Node.mk ("b") [("V")] (some [(("y"), .int 1)]) true]
        [] (some ("S")) [("a"), ("b")])).nodes.map (fun nd => nd.id)
      = [("a"), ("b")]
    ∧ ((node_to_dict (Node.mk ("a") [("U")] (some [(("x"), .null)]) true)).properties = none
        ↔ stripNulls (propsOf (some [(("x"), .null)])) = [])
    ∧ (to_dict (OpenGraphBuilder.mk [] [] (some ("S")) [])).metadata = truthyOpt (some ("S"))
    ∧ ((mkBuilder (some ("S"))).metadata = some ("S") ↔ some ("S") = some ("S") ∧ ("S") ≠ "") :=
  ⟨(claim8_document_shape (OpenGraphBuilder.mk
      [Node.mk ("a") [("U")] (some [(("x"), .null)]) true,
       Node.mk ("b") [("V")] (some [(("y"), .int 1)]) true]
      [] (some ("S")) [("a"), ("b")])).2.1,
   (claim8_document_shape (OpenGraphBuilder.mk [] [] none [])).2.2.2.1
     (Node.mk ("a") [("U")] (some [(("x"), .null)]) true),
   (claim8_document_shape (OpenGraphBuilder.mk [] [] (some ("S")) [])).2.2.2.2.2.2.1,
   (claim8_document_shape (OpenGraphBuilder.mk [] [] none [])).2.2.2.2.2.2.2 (some ("S")) ("S")⟩

theorem foldl_union_eq_append_newKinds (nw : List String) (ex : List String) :
    nw.foldl (fun ks k => if ks.contains k then ks else ks ++ [k]) ex
      = ex ++ newKinds ex nw := by
  induction nw generalizing ex with
  | nil => simp [newKinds]
  | cons k ks ih =>
    rw [List.foldl_cons]
    unfold newKinds
    by_cases h : ex.contains k = true
    · rw [if_pos h, if_pos h, ih ex]
    · rw [if_neg h, if_neg h, ih (ex ++ [k])]
      simp

theorem lookupKey_eq_none_of_not_mem_keys (m : PropMap) (k : String)
    (h : ¬ k ∈ m.map Prod.fst) : lookupKey k m = none := by
  induction m with
  | nil => rfl
  | cons kv rest ih =>
    rw [List.map_cons, List.mem_cons, not_or] at h
    have hne : (kv.1 == k) = false := by
      simp only [beq_eq_false_iff_ne]
      exact fun he => h.1 he.symm
    unfold lookupKey
    rw [hne]
    simp only [Bool.false_eq_true, if_false]
    exact ih h.2

theorem lookupKey_map_update_ne (m : PropMap) (key k : String) (v : Value) (hk : k ≠ key) :
    lookupKey k (m.map (fun kv => if kv.1 == key then (key, v) else kv)) = lookupKey k m := by
  induction m with
  | nil => rfl
  | cons kv rest ih =>
    obtain ⟨a, w⟩ := kv
    rw [List.map_cons]
    by_cases ha : a = key
    · subst ha
      have h2 : (a == k) = false := beq_eq_false_iff_ne.mpr (fun he => hk he.symm)
      simp only [beq_self_eq_true, if_true, lookupKey, h2, Bool.false_eq_true, if_false]
      exact ih
    · have ha2 : (a == key) = false := beq_eq_false_iff_ne.mpr ha
      simp only [ha2, Bool.false_eq_true, if_false, lookupKey]
      by_cases hc : (a == k) = true
      · simp only [hc, if_true]
      · rw [Bool.not_eq_true] at hc
        simp only [hc, Bool.false_eq_true, if_false]
        exact ih

theorem lookupKey_map_update_eq (m : PropMap) (key : String) (v : Value)
    (hany : m.any (fun kv => kv.1 == key) = true) :
    lookupKey key (m.map (fun kv => if kv.1 == key then (key, v) else kv)) = some v := by
  induction m with
  | nil => simp at hany
  | cons kv rest ih =>
    obtain ⟨a, w⟩ := kv
    rw [List.map_cons]
    by_cases ha : a = key
    · subst ha
      simp only [beq_self_eq_true, if_true, lookupKey]
    · have ha2 : (a == key) = false := beq_eq_false_iff_ne.mpr ha
      simp only [ha2, Bool.false_eq_true, if_false, lookupKey]
      apply ih
      rw [List.any_cons] at hany
      rcases Bool.or_eq_true_iff.mp hany with hb | hb
      · rw [ha2] at hb; exact Bool.noConfusion hb
      · exact hb

theorem lookupKey_append (l1 l2 : PropMap) (k : String) :
    lookupKey k (l1 ++ l2)
      = match lookupKey k l1 with
        | some v => some v
        | none => lookupKey k l2 := by
  induction l1 with
  | nil => rfl
  | cons kv rest ih =>
    obtain ⟨a, w⟩ := kv
    rw [List.cons_append]
    by_cases ha : (a == k) = true
    · simp only [lookupKey, ha, if_true]
    · rw [Bool.not_eq_true] at ha
      simp only [lookupKey, ha, Bool.false_eq_true, if_false]
      exact ih

theorem lookupKey_dict_set (m : PropMap) (key : String) (v : Value) (k : String) :
    lookupKey k (dict_set m key v) = if k = key then some v else lookupKey k m := by
  unfold dict_set
  cases hany : m.any (fun kv => kv.1 == key) with
  | true =>
    rw [if_pos rfl]
    by_cases hk : k = key
    · subst hk
      rw [if_pos rfl]
      exact lookupKey_map_update_eq m k v hany
    · rw [if_neg hk]
      exact lookupKey_map_update_ne m key k v hk
  | false =>
    rw [if_neg Bool.false_ne_true]
    rw [lookupKey_append]
    by_cases hk : k = key
    · subst hk
      have hnone : lookupKey k m = none := by
        apply lookupKey_eq_none_of_not_mem_keys
        intro hmem
        rcases List.mem_map.mp hmem with ⟨kv, hkv, hfst⟩
        have hbeq : (kv.1 == k) = true := by simp [hfst]
        have hany2 : m.any (fun kv => kv.1 == k) = true :=
          List.any_eq_true.mpr ⟨kv, hkv, hbeq⟩
        rw [hany2] at hany
        exact Bool.noConfusion hany
      rw [hnone, if_pos rfl]
      simp [lookupKey]
    · rw [if_neg hk]
      cases hl : lookupKey k m with
      | some w => rfl
      | none =>
        have h2 : (key == k) = false := beq_eq_false_iff_ne.mpr (fun he => hk he.symm)
        simp [lookupKey, h2]

theorem lookupKey_cons_self (k : String) (v : Value) (rest : PropMap) :
    lookupKey k ((k, v) :: rest) = some v := by
  simp [lookupKey]

theorem lookupKey_cons_ne (a k : String) (v : Value) (rest : PropMap) (h : a ≠ k) :
    lookupKey k ((a, v) :: rest) = lookupKey k rest := by
  have h2 : (a == k) = false := beq_eq_false_iff_ne.mpr h
  simp only [lookupKey, h2, Bool.false_eq_true, if_false]

theorem keys_not_mem_of_nodup_cons {a : String} {v : Value} {rest : PropMap}
    (h : ((( a, v) :: rest).map Prod.fst).Nodup) :
    ¬ a ∈ rest.map Prod.fst := by
  rw [List.map_cons, List.nodup_cons] at h
  exact h.1

theorem lookupKey_overlayProps (upd : PropMap) (base : PropMap) (k : String)
    (h : (upd.map Prod.fst).Nodup) :
    lookupKey k (overlayProps base upd)
      = firstSome (lookupKey k upd) (lookupKey k base) := by
  induction upd generalizing base with
  | nil => rfl
  | cons kv rest ih =>
    obtain ⟨a, v⟩ := kv
    have hstep : overlayProps base ((a, v) :: rest) = overlayProps (dict_set base a v) rest := rfl
    rw [hstep]
    have hrest : (rest.map Prod.fst).Nodup := by
      rw [List.map_cons, List.nodup_cons] at h
      exact h.2
    rw [ih (dict_set base a v) hrest, lookupKey_dict_set]
    by_cases hk : k = a
    · subst hk
      have hnone : lookupKey k rest = none :=
        lookupKey_eq_none_of_not_mem_keys rest k (keys_not_mem_of_nodup_cons h)
      rw [hnone, if_pos rfl, lookupKey_cons_self]
      rfl
    · rw [if_neg hk, lookupKey_cons_ne a k v rest (fun he => hk he.symm)]

theorem overlayProps_of_disjoint (upd : PropMap) (base : PropMap)
    (hd : ∀ kv ∈ upd, base.any (fun kv2 => kv2.1 == kv.1) = false)
    (hn : (upd.map Prod.fst).Nodup) :
    overlayProps base upd = base ++ upd := by
  induction upd generalizing base with
  | nil => simp [overlayProps]
  | cons kv rest ih =>
    obtain ⟨a, v⟩ := kv
    have hstep : overlayProps base ((a, v) :: rest) = overlayProps (dict_set base a v) rest := rfl
    rw [hstep]
    have hset : dict_set base a v = base ++ [(a, v)] := by
      unfold dict_set
      rw [if_neg (by rw [hd (a, v) (List.mem_cons_self _ _)]; exact Bool.false_ne_true)]
    rw [hset]
    have hrest : (rest.map Prod.fst).Nodup := by
      rw [List.map_cons, List.nodup_cons] at hn
      exact hn.2
    rw [ih (base ++ [(a, v)]) ?_ hrest]
    · simp
    · intro kv2 hkv2
      rw [List.any_append]
      have h1 : base.any (fun x => x.1 == kv2.1) = false :=
        hd kv2 (List.mem_cons_of_mem _ hkv2)
      have h2 : ([(a, v)] : PropMap).any (fun x => x.1 == kv2.1) = false := by
        simp only [List.any_cons, List.any_nil, Bool.or_false]
        simp only [beq_eq_false_iff_ne]
        have : ¬ a ∈ rest.map Prod.fst := keys_not_mem_of_nodup_cons hn
        intro he
        exact this (he ▸ List.mem_map.mpr ⟨kv2, hkv2, rfl⟩)
      rw [h1, h2]
      rfl

theorem overlayProps_nil_left (upd : PropMap) (hn : (upd.map Prod.fst).Nodup) :
    overlayProps [] upd = upd := by
  rw [overlayProps_of_disjoint upd [] (fun kv _ => rfl) hn]
  rfl

theorem mergePropsInto_kinds (n1 new_node : Node) :
    (mergePropsInto n1 new_node).kinds = n1.kinds := by
  unfold mergePropsInto
  by_cases ht : truthyProps new_node.properties = true
  · rw [if_pos ht]
    cases hp : n1.properties <;> rfl
  · rw [if_neg ht]

theorem mergePropsInto_flag (n1 new_node : Node) :
    (mergePropsInto n1 new_node).source_kind_available = n1.source_kind_available := by
  unfold mergePropsInto
  by_cases ht : truthyProps new_node.properties = true
  · rw [if_pos ht]
    cases hp : n1.properties <;> rfl
  · rw [if_neg ht]

theorem firstSome_none_right (a : Option Value) : firstSome a none = a := by
  cases a <;> rfl

theorem merge_tail_ok (n2 res : Node) (u : Unit)
    (h : (match validate_kinds n2.kinds n2.source_kind_available with
          | .error e => OpResult.err n2 e
          | .ok _ =>
            if truthyProps n2.properties then
              match validate_properties (propsOf n2.properties) with
              | .error e => OpResult.err n2 e
              | .ok _ => OpResult.ok n2 ()
            else OpResult.ok n2 ()) = OpResult.ok res u) :
    res = n2 := by
  cases hv : validate_kinds n2.kinds n2.source_kind_available with
  | error e => rw [hv] at h; exact OpResult.noConfusion h
  | ok u2 =>
    rw [hv] at h
    by_cases ht : truthyProps n2.properties = true
    · rw [if_pos ht] at h
      cases hp : validate_properties (propsOf n2.properties) with
      | error e => rw [hp] at h; exact OpResult.noConfusion h
      | ok u3 => rw [hp] at h; cases h; rfl
    · rw [if_neg ht] at h
      cases h; rfl

theorem merge_ok_shape (ex nw res : Node) (u : Unit)
    (h : merge_node_properties ex nw = .ok res u) :
    res = mergePropsInto
      { ex with kinds := ex.kinds ++ newKinds ex.kinds nw.kinds } nw := by
  unfold merge_node_properties at h
  rw [foldl_union_eq_append_newKinds] at h
  by_cases hlim : 3 < (ex.kinds ++ newKinds ex.kinds nw.kinds).length
  · rw [if_pos hlim] at h
    exact OpResult.noConfusion h
  · rw [if_neg hlim] at h
    exact merge_tail_ok _ res u h

/-- C4: when a merge succeeds, the resulting kinds are the existing kinds
followed by exactly the incoming kinds not already present, in first-seen
order; when the existing node had no properties the resulting property
map is the incoming one; and on every key the resulting map holds the
incoming value when the incoming map has the key and the existing value
otherwise. -/
theorem claim4_merge_result (ex nw res : Node) (u : Unit)
    (hnodup : ((propsOf nw.properties).map Prod.fst).Nodup)
    (h : merge_node_properties ex nw = .ok res u) :
    res.kinds = ex.kinds ++ newKinds ex.kinds nw.kinds
    ∧ (propsOf ex.properties = [] → propsOf res.properties = propsOf nw.properties)
    ∧ (∀ k, lookupKey k (propsOf res.properties)
        = firstSome (lookupKey k (propsOf nw.properties)) (lookupKey k (propsOf ex.properties))) := by
  have hres := merge_ok_shape ex nw res u h
  subst hres
  refine ⟨by rw [mergePropsInto_kinds], ?_, ?_⟩
  · intro hemp
    unfold mergePropsInto
    by_cases ht : truthyProps nw.properties = true
    · rw [if_pos ht]
      cases hp : ex.properties with
      | none => rfl
      | some em =>
        have hem : em = [] := by
          rw [hp] at hemp
          exact hemp
        subst hem
        simp only [propsOf]
        exact overlayProps_nil_left (propsOf nw.properties) hnodup
    · rw [if_neg ht]
      have hnw : propsOf nw.properties = [] := by
        cases hq : nw.properties with
        | none => rfl
        | some nm =>
          rw [hq] at ht
          simp only [truthyProps, Bool.not_eq_true, Bool.not_eq_false] at ht
          simpa [propsOf] using ht
      rw [hnw]
      exact hemp
  · intro k
    unfold mergePropsInto
    by_cases ht : truthyProps nw.properties = true
    · rw [if_pos ht]
      cases hp : ex.properties with
      | none =>
        simp only [propsOf]
        rw [show lookupKey k ([] : PropMap) = none from rfl, firstSome_none_right]
      | some em =>
        simp only [propsOf]
        exact lookupKey_overlayProps (propsOf nw.properties) em k hnodup
    · rw [if_neg ht]
      have hnw : propsOf nw.properties = [] := by
        cases hq : nw.properties with
        | none => rfl
        | some nm =>
          rw [hq] at ht
          simp only [truthyProps, Bool.not_eq_true, Bool.not_eq_false] at ht
          simpa [propsOf] using ht
      rw [hnw]
      rfl

/-- C4 witness: a concrete successful merge combining kind union and
property overlay. -/
theorem claim4_merge_result_witness :
    merge_node_properties
        (Node.mk ("n") [("User")] (some [(("name"), .str ("Charlie")), (("age"), .int 25)]) false)
        (Node.mk ("n") [("Person"), ("User")] (some [(("age"), .int 26), (("email"), .str ("c@e"))]) false)
      = .ok (Node.mk ("n") [("User"), ("Person")]
          (some [(("name"), .str ("Charlie")), (("age"), .int 26), (("email"), .str ("c@e"))]) false) ()
    ∧ (Node.mk ("n") [("User"), ("Person")]
          (some [(("name"), .str ("Charlie")), (("age"), .int 26), (("email"), .str ("c@e"))]) false).kinds
      = [("User")] ++ newKinds [("User")] [("Person"), ("User")]
    ∧ lookupKey ("age")
        (propsOf (some [(("name"), .str ("Charlie")), (("age"), .int 26), (("email"), .str ("c@e"))]))
      = firstSome (lookupKey ("age") (propsOf (some [(("age"), .int 26), (("email"), .str ("c@e"))])))
          (lookupKey ("age") (propsOf (some [(("name"), .str ("Charlie")), (("age"), .int 25)]))) :=
  ⟨rfl,
   (claim4_merge_result
      (Node.mk ("n") [("User")] (some [(("name"), .str ("Charlie")), (("age"), .int 25)]) false)
      (Node.mk ("n") [("Person"), ("User")] (some [(("age"), .int 26), (("email"), .str ("c@e"))]) false)
      (Node.mk ("n") [("User"), ("Person")]
        (some [(("name"), .str ("Charlie")), (("age"), .int 26), (("email"), .str ("c@e"))]) false) ()
      (by decide) rfl).1,
   (claim4_merge_result
      (Node.mk ("n") [("User")] (some [(("name"), .str ("Charlie")), (("age"), .int 25)]) false)
      (Node.mk ("n") [("Person"), ("User")] (some [(("age"), .int 26), (("email"), .str ("c@e"))]) false)
      (Node.mk ("n") [("User"), ("Person")]
        (some [(("name"), .str ("Charlie")), (("age"), .int 26), (("email"), .str ("c@e"))]) false) ()
      (by decide) rfl).2.2 ("age")⟩

theorem merge_kind_limit_err (ex nw : Node)
    (hover : 3 < (ex.kinds ++ newKinds ex.kinds nw.kinds).length) :
    merge_node_properties ex nw
      = .err { ex with kinds := ex.kinds ++ newKinds ex.kinds nw.kinds }
          (.schemaViolation (mergeLimitMsg ex.id)) := by
  unfold merge_node_properties
  rw [foldl_union_eq_append_newKinds]
  rw [if_pos hover]

theorem replaceFirst_map_props (l : List Node) (i : String) (ex n' : Node)
    (hf : l.find? (fun n => n.id == i) = some ex) (hp : n'.properties = ex.properties) :
    (replaceFirstById l i n').map (fun n => n.properties) = l.map (fun n => n.properties) := by
  induction l with
  | nil => exact Option.noConfusion hf
  | cons a rest ih =>
    by_cases ha : (a.id == i) = true
    · rw [List.find?_cons_of_pos rest ha] at hf
      have hae : a = ex := Option.some.inj hf
      unfold replaceFirstById
      rw [if_pos ha]
      rw [List.map_cons, List.map_cons, hp, hae]
    · rw [List.find?_cons_of_neg rest ha] at hf
      unfold replaceFirstById
      rw [if_neg ha]
      rw [List.map_cons, List.map_cons, ih hf]

/-- C1 counterexample: adding a node with kinds A,B,C and then, with
merging enabled, a node with the same id and kind D raises SchemaViolation
for the over-limit union, but the stored node's kinds after the raise are
A,B,C,D — not the A,B,C they were before the failing call, refuting the
all-or-nothing claim. -/
theorem claim1_counterexample :
    add_node (mkBuilder none) (Node.mk ("x") [("A"), ("B"), ("C")] none false) true
      = .ok (OpenGraphBuilder.mk [Node.mk ("x") [("A"), ("B"), ("C")] none false] [] none [("x")])
          (Node.mk ("x") [("A"), ("B"), ("C")] none false)
    ∧ add_node (OpenGraphBuilder.mk [Node.mk ("x") [("A"), ("B"), ("C")] none false] [] none [("x")])
        (Node.mk ("x") [("D")] none false) true
      = .err (OpenGraphBuilder.mk [Node.mk ("x") [("A"), ("B"), ("C"), ("D")] none false] [] none [("x")])
          (.schemaViolation (mergeLimitMsg ("x")))
    ∧ ([("A"), ("B"), ("C"), ("D")] : List String) ≠ [("A"), ("B"), ("C")] :=
  ⟨rfl, rfl, by decide⟩

/-- C1 (amended): when the merge triggered by add_node or create_node
with merging enabled fails because the kind union exceeds 3 kinds, the
raised error is SchemaViolation and after the raise the existing node's
kinds already hold the full union (the partial kind mutation is
observable), while every stored node's properties — the existing node's
included — are exactly what they were before the call, and the edge list,
id index and metadata are unchanged. -/
theorem claim1_partial_mutation (b : OpenGraphBuilder) (node ex : Node)
    (hfind : b.nodes.find? (fun n => n.id == node.id) = some ex)
    (hc : node.id ∈ b.node_ids)
    (hover : 3 < (ex.kinds ++ newKinds ex.kinds node.kinds).length) :
    add_node b node true
      = .err ({ b with
                nodes := replaceFirstById b.nodes node.id
                  (Node.mk ex.id (ex.kinds ++ newKinds ex.kinds node.kinds)
                    ex.properties ex.source_kind_available) })
          (.schemaViolation (mergeLimitMsg ex.id))
    ∧ (replaceFirstById b.nodes node.id
        (Node.mk ex.id (ex.kinds ++ newKinds ex.kinds node.kinds)
          ex.properties ex.source_kind_available)).map (fun n => n.properties)
        = b.nodes.map (fun n => n.properties)
    ∧ (∀ kinds props nw, mkNode node.id kinds props b.metadata.isSome = .ok nw →
        3 < (ex.kinds ++ newKinds ex.kinds nw.kinds).length →
        create_node b node.id kinds props true
          = .err ({ b with
                    nodes := replaceFirstById b.nodes node.id
                      (Node.mk ex.id (ex.kinds ++ newKinds ex.kinds nw.kinds)
                        ex.properties ex.source_kind_available) })
              (.schemaViolation (mergeLimitMsg ex.id))) := by
  have hct : b.node_ids.contains node.id = true := by simpa using hc
  refine ⟨?_, ?_, ?_⟩
  · unfold add_node
    rw [hct, if_pos rfl, if_neg (by decide), hfind]
    dsimp only
    rw [merge_kind_limit_err ex node hover]
  · exact replaceFirst_map_props b.nodes node.id ex
      (Node.mk ex.id (ex.kinds ++ newKinds ex.kinds node.kinds)
        ex.properties ex.source_kind_available) hfind rfl
  · intro kinds props nw hmk hover2
    unfold create_node
    rw [hct, if_pos rfl, if_neg (by decide), hfind]
    dsimp only
    rw [hmk]
    dsimp only
    rw [merge_kind_limit_err ex nw hover2]

/-- C1 witness for the amended statement: a concrete over-limit merge. -/
theorem claim1_partial_mutation_witness :
    add_node (OpenGraphBuilder.mk [Node.mk ("y") [("A"), ("B"), ("C")] none false] [] none [("y")])
        (Node.mk ("y") [("D")] none false) true
      = .err (OpenGraphBuilder.mk [Node.mk ("y") [("A"), ("B"), ("C"), ("D")] none false] [] none [("y")])
          (.schemaViolation (mergeLimitMsg ("y")))
    ∧ (replaceFirstById [Node.mk ("y") [("A"), ("B"), ("C")] none false] ("y")
        (Node.mk ("y") [("A"), ("B"), ("C"), ("D")] none false)).map (fun n => n.properties)
        = [Node.mk ("y") [("A"), ("B"), ("C")] none false].map (fun n => n.properties) := by
  have h := claim1_partial_mutation
    (OpenGraphBuilder.mk [Node.mk ("y") [("A"), ("B"), ("C")] none false] [] none [("y")])
    (Node.mk ("y") [("D")] none false)
    (Node.mk ("y") [("A"), ("B"), ("C")] none false)
    rfl (by decide) (by decide)
  exact ⟨h.1, h.2.1⟩

theorem stripNulls_of_all_not_null (m : PropMap)
    (h : m.all (fun kv => !kv.2.isNull) = true) : stripNulls m = m :=
  List.filter_eq_self.mpr (List.all_eq_true.mp h)

theorem stripNulls_idem (m : PropMap) : stripNulls (stripNulls m) = stripNulls m :=
  List.filter_eq_self.mpr (fun _ hkv => (List.mem_filter.mp hkv).2)

theorem truthyOpt_eq_self_of_ne (o : Option String) (h : o ≠ some "") :
    truthyOpt o = o := by
  cases o with
  | none => rfl
  | some s =>
    unfold truthyOpt
    dsimp only
    rw [if_neg (fun he => h (by rw [he]))]

theorem strip_props_doc (p : Option PropMap) :
    stripNulls (propsOf (props_to_dict p)) = stripNulls (propsOf p) := by
  cases p with
  | none => rfl
  | some m =>
    unfold props_to_dict
    dsimp only
    by_cases hm : (stripNulls m).isEmpty = true
    · rw [if_pos hm]
      have : stripNulls m = [] := by simpa using hm
      rw [show propsOf none = [] from rfl, show propsOf (some m) = m from rfl, this]
      rfl
    · rw [if_neg hm]
      rw [show propsOf (some (stripNulls m)) = stripNulls m from rfl,
        show propsOf (some m) = m from rfl]
      exact stripNulls_idem m

theorem mkNode_ok_shape (id : String) (kinds : List String) (props : Option PropMap)
    (ska : Bool) (hv : validate_kinds kinds ska = .ok ()) :
    mkNode id kinds props ska
      = match props with
        | some m =>
          if m.isEmpty then .ok (Node.mk id kinds (some m) ska)
          else
            match validate_properties (stripNulls m) with
            | .error e => .error e
            | .ok _ => .ok (Node.mk id kinds (some (stripNulls m)) ska)
        | none => .ok (Node.mk id kinds none ska) := by
  unfold mkNode
  rw [hv]

theorem mkNode_of_doc (md : Option String) (n : Node) (hw : nodeWF md n = true) :
    mkNode n.id n.kinds (props_to_dict n.properties) md.isSome
      = .ok (rebuiltNode md n) := by
  unfold nodeWF at hw
  rw [Bool.and_eq_true, Bool.and_eq_true] at hw
  obtain ⟨⟨hflag, hkv⟩, hsp⟩ := hw
  have hflag' : n.source_kind_available = md.isSome := by simpa using hflag
  have hkv' : validate_kinds n.kinds md.isSome = .ok () := by
    rw [← hflag']
    unfold exceptOk at hkv
    cases hv : validate_kinds n.kinds n.source_kind_available with
    | error e => rw [hv] at hkv; exact Bool.noConfusion hkv
    | ok u => cases u; rfl
  rw [mkNode_ok_shape n.id n.kinds (props_to_dict n.properties) md.isSome hkv']
  cases hp : n.properties with
  | none =>
    unfold rebuiltNode
    rw [hp]
    rfl
  | some m =>
    rw [hp] at hsp
    unfold storedProps at hsp
    rw [Bool.and_eq_true] at hsp
    obtain ⟨hall, hvp⟩ := hsp
    have hstrip : stripNulls m = m := stripNulls_of_all_not_null m hall
    have hvp' : validate_properties m = .ok () := by
      unfold exceptOk at hvp
      cases hv : validate_properties m with
      | error e => rw [hv] at hvp; exact Bool.noConfusion hvp
      | ok u => cases u; rfl
    have hdoc : props_to_dict (some m) = if m.isEmpty then none else some m := by
      unfold props_to_dict
      dsimp only
      rw [hstrip]
    unfold rebuiltNode
    rw [hp, hdoc]
    by_cases hm : m.isEmpty = true
    · rw [if_pos hm]
    · rw [if_neg hm]
      dsimp only
      rw [if_neg hm, hstrip, hvp']

theorem create_node_of_doc (c : OpenGraphBuilder) (n : Node)
    (hmem : n.id ∉ c.node_ids) (hw : nodeWF c.metadata n = true) :
    create_node c (node_to_dict n).id (node_to_dict n).kinds (node_to_dict n).properties true
      = .ok ({ c with
               nodes := c.nodes ++ [rebuiltNode c.metadata n],
               node_ids := c.node_ids ++ [n.id] }) (rebuiltNode c.metadata n) := by
  rw [show (node_to_dict n).id = n.id from rfl,
    show (node_to_dict n).kinds = n.kinds from rfl,
    show (node_to_dict n).properties = props_to_dict n.properties from rfl]
  rw [create_node_of_not_mem c n.id n.kinds (props_to_dict n.properties) true hmem]
  rw [mkNode_of_doc c.metadata n hw]

theorem rebuildNodes_ok (ns : List Node) (c : OpenGraphBuilder)
    (hw : ∀ n ∈ ns, nodeWF c.metadata n = true)
    (hnd : (ns.map (fun n => n.id)).Nodup)
    (hfresh : ∀ n ∈ ns, n.id ∉ c.node_ids) :
    rebuildNodes c (ns.map node_to_dict)
      = .ok ({ c with
               nodes := c.nodes ++ ns.map (rebuiltNode c.metadata),
               node_ids := c.node_ids ++ ns.map (fun n => n.id) }) := by
  induction ns generalizing c with
  | nil => simp [rebuildNodes]
  | cons n rest ih =>
    rw [List.map_cons]
    unfold rebuildNodes
    rw [create_node_of_doc c n (hfresh n (List.mem_cons_self n rest))
      (hw n (List.mem_cons_self n rest))]
    dsimp only
    rw [List.map_cons, List.nodup_cons] at hnd
    have hfresh2 : ∀ n2 ∈ rest, n2.id ∉ c.node_ids ++ [n.id] := by
      intro n2 h2
      rw [List.mem_append, List.mem_singleton]
      rintro (hin | hin)
      · exact hfresh n2 (List.mem_cons_of_mem n h2) hin
      · exact hnd.1 (hin ▸ List.mem_map.mpr ⟨n2, h2, rfl⟩)
    have hih := ih ({ c with nodes := c.nodes ++ [rebuiltNode c.metadata n], node_ids := c.node_ids ++ [n.id] }) (fun n2 h2 => hw n2 (List.mem_cons_of_mem n h2)) hnd.2 hfresh2
    rw [hih]
    simp [List.append_assoc]

theorem mkEdge_of_doc (e : Edge) (hw : edgeWF e = true) :
    mkEdge (refOfDoc (ref_to_dict e.start)) (refOfDoc (ref_to_dict e.end_)) e.kind
        (props_to_dict e.properties)
      = .ok (rebuiltEdge e) := by
  unfold edgeWF at hw
  rw [Bool.and_eq_true] at hw
  obtain ⟨hk, hsp⟩ := hw
  have hk' : e.kind ≠ "" := by simpa using hk
  unfold mkEdge rebuiltEdge
  rw [if_neg hk']
  cases hp : e.properties with
  | none => rfl
  | some m =>
    rw [hp] at hsp
    unfold storedProps at hsp
    rw [Bool.and_eq_true] at hsp
    obtain ⟨hall, hvp⟩ := hsp
    have hstrip : stripNulls m = m := stripNulls_of_all_not_null m hall
    have hvp' : validate_properties m = .ok () := by
      unfold exceptOk at hvp
      cases hv : validate_properties m with
      | error e2 => rw [hv] at hvp; exact Bool.noConfusion hvp
      | ok u => cases u; rfl
    have hdoc : props_to_dict (some m) = if m.isEmpty then none else some m := by
      unfold props_to_dict
      dsimp only
      rw [hstrip]
    rw [hdoc]
    by_cases hm : m.isEmpty = true
    · rw [if_pos hm]
    · rw [if_neg hm]
      dsimp only
      rw [if_neg hm, hstrip, hvp']

theorem rebuildEdges_ok (es : List Edge) (c : OpenGraphBuilder)
    (hw : ∀ e ∈ es, edgeWF e = true) :
    rebuildEdges c (es.map edge_to_dict)
      = .ok { c with edges := c.edges ++ es.map rebuiltEdge } := by
  induction es generalizing c with
  | nil => simp [rebuildEdges]
  | cons e rest ih =>
    rw [List.map_cons]
    unfold rebuildEdges
    rw [show (edge_to_dict e).start = ref_to_dict e.start from rfl,
      show (edge_to_dict e).end_ = ref_to_dict e.end_ from rfl,
      show (edge_to_dict e).kind = e.kind from rfl,
      show (edge_to_dict e).properties = props_to_dict e.properties from rfl]
    rw [mkEdge_of_doc e (hw e (List.mem_cons_self e rest))]
    dsimp only
    rw [ih (add_edge c (rebuiltEdge e)) (fun e2 h2 => hw e2 (List.mem_cons_of_mem e h2))]
    simp [add_edge, List.append_assoc]

theorem matchBy_roundtrip (mb : MatchBy) : matchByOfString (matchByStr mb) = mb := by
  cases mb <;> rfl

theorem truthyOpt_idem (o : Option String) : truthyOpt (truthyOpt o) = truthyOpt o := by
  cases o with
  | none => rfl
  | some s =>
    by_cases hs : s = ""
    · subst hs
      rfl
    · have h : truthyOpt (some s) = some s :=
        truthyOpt_eq_self_of_ne (some s) (fun he => hs (Option.some.inj he))
      rw [h, h]

theorem refObs_roundtrip (r : NodeReference) : refObs (refOfDoc (ref_to_dict r)) = refObs r := by
  unfold refObs refOfDoc ref_to_dict
  dsimp only
  rw [matchBy_roundtrip, truthyOpt_idem]

theorem nodeObs_rebuilt (md : Option String) (n : Node) (hw : nodeWF md n = true) :
    nodeObs (rebuiltNode md n) = nodeObs n := by
  have hflag : n.source_kind_available = md.isSome := by
    unfold nodeWF at hw
    rw [Bool.and_eq_true, Bool.and_eq_true] at hw
    simpa using hw.1.1
  unfold nodeObs rebuiltNode
  dsimp only
  rw [strip_props_doc, hflag]

theorem edgeObs_rebuilt (e : Edge) : edgeObs (rebuiltEdge e) = edgeObs e := by
  unfold edgeObs rebuiltEdge
  dsimp only
  rw [refObs_roundtrip, refObs_roundtrip, strip_props_doc]

/-- C6: round-trip: for every well-formed builder graph, reconstructing
the nodes, edges and metadata from the values of the to_dict document
through the builder API succeeds and yields a graph whose observable
content — every node's id, kinds, null-stripped property map and flag,
every edge's endpoint references, kind and property map, and the
metadata — equals the original's: serialization loses or alters no
primitive, array, or metadata value. -/
theorem claim6_round_trip (b : OpenGraphBuilder) (h : WF b) :
    ∃ b', rebuild (to_dict b) = .ok b'
      ∧ b'.nodes.map nodeObs = b.nodes.map nodeObs
      ∧ b'.edges.map edgeObs = b.edges.map edgeObs
      ∧ b'.metadata = b.metadata := by
  obtain ⟨hm, hnd, hnw, hew⟩ := h
  have hmeta : truthyOpt b.metadata = b.metadata := truthyOpt_eq_self_of_ne b.metadata hm
  have hb0 : mkBuilder (to_dict b).metadata = OpenGraphBuilder.mk [] [] b.metadata [] := by
    unfold mkBuilder to_dict
    dsimp only
    rw [hmeta, hmeta]
  unfold rebuild
  rw [hb0]
  rw [show (to_dict b).nodes = b.nodes.map node_to_dict from rfl]
  rw [rebuildNodes_ok b.nodes (OpenGraphBuilder.mk [] [] b.metadata [])
    (fun n hn => List.all_eq_true.mp hnw n hn) hnd (fun n _ => List.not_mem_nil n.id)]
  dsimp only
  rw [show (to_dict b).edges = b.edges.map edge_to_dict from rfl]
  rw [rebuildEdges_ok b.edges _ (fun e he => List.all_eq_true.mp hew e he)]
  refine ⟨_, rfl, ?_, ?_, rfl⟩
  · dsimp only
    rw [List.nil_append, List.map_map]
    exact List.map_congr_left (fun n hn =>
      nodeObs_rebuilt b.metadata n (List.all_eq_true.mp hnw n hn))
  · dsimp only
    rw [List.nil_append, List.map_map]
    exact List.map_congr_left (fun e _ => edgeObs_rebuilt e)

/-- C6 witness: a concrete two-node, one-edge graph with source kind S
round-trips. -/
theorem claim6_round_trip_witness :
    WF (OpenGraphBuilder.mk
        [Node.mk ("a") [] (some [(("name"), .str ("alice"))]) true,
         Node.mk ("b") [("User")] none true]
        [Edge.mk (NodeReference.mk ("a") .id none) (NodeReference.mk ("b") .id none) ("K") none]
        (some ("S")) [("a"), ("b")])
    ∧ ∃ b', rebuild (to_dict (OpenGraphBuilder.mk
        [Node.mk ("a") [] (some [(("name"), .str ("alice"))]) true,
         Node.mk ("b") [("User")] none true]
        [Edge.mk (NodeReference.mk ("a") .id none) (NodeReference.mk ("b") .id none) ("K") none]
        (some ("S")) [("a"), ("b")])) = .ok b'
      ∧ b'.nodes.map nodeObs = (OpenGraphBuilder.mk
          [Node.mk ("a") [] (some [(("name"), .str ("alice"))]) true,
           Node.mk ("b") [("User")] none true]
          [Edge.mk (NodeReference.mk ("a") .id none) (NodeReference.mk ("b") .id none) ("K") none]
          (some ("S")) [("a"), ("b")]).nodes.map nodeObs
      ∧ b'.edges.map edgeObs = (OpenGraphBuilder.mk
          [Node.mk ("a") [] (some [(("name"), .str ("alice"))]) true,
           Node.mk ("b") [("User")] none true]
          [Edge.mk (NodeReference.mk ("a") .id none) (NodeReference.mk ("b") .id none) ("K") none]
          (some ("S")) [("a"), ("b")]).edges.map edgeObs
      ∧ b'.metadata = (OpenGraphBuilder.mk
          [Node.mk ("a") [] (some [(("name"), .str ("alice"))]) true,
           Node.mk ("b") [("User")] none true]
          [Edge.mk (NodeReference.mk ("a") .id none) (NodeReference.mk ("b") .id none) ("K") none]
          (some ("S")) [("a"), ("b")]).metadata := by
  constructor
  · decide
  · exact claim6_round_trip _ (by decide)

end OpenGraph
